import Mathlib

/-!
Verification of the IPL Fantasy Decision Support System core logic.

The definitions below are a shallow embedding of `src/streamlit_app.py`:
pandas dataframes become lists of `Player` records, dataframe filters become
`List.filter`, `sort_values` becomes a stable sort (`List.insertionSort`,
the deterministic tie-break documented in the design notes), and the pandas
column assignment that raises `ValueError` on a length mismatch becomes an
`Option`-returning function.  Numeric columns are embedded as `Rat`.
-/

namespace IPLFantasy

/-- A row of the player table (one record per player). -/
structure Player where
  player_name : String
  Team_2025 : String
  Role : String
  Total_Matches : Rat
  Strike_Rate : Rat
  Economy_Rate : Rat
  Predicted_Fantasy_Score : Rat
deriving DecidableEq

/-- A raw row before `load_data`: numeric columns may be missing (NaN). -/
structure RawPlayer where
  player_name : String
  Team_2025 : String
  Role : String
  Total_Matches : Option Rat
  Strike_Rate : Option Rat
  Economy_Rate : Option Rat
  Predicted_Fantasy_Score : Option Rat
deriving DecidableEq

/-- Replacement of missing numeric values by 0 (`df[numeric_cols].fillna(0)`). -/
def fillRow (q : RawPlayer) : Player :=
  { player_name := q.player_name
    Team_2025 := q.Team_2025
    Role := q.Role
    Total_Matches := q.Total_Matches.getD 0
    Strike_Rate := q.Strike_Rate.getD 0
    Economy_Rate := q.Economy_Rate.getD 0
    Predicted_Fantasy_Score := q.Predicted_Fantasy_Score.getD 0 }

/-- Embedding of `load_data`: fill missing numeric values with 0, then drop
every row whose `Team_2025` field is the sentinel `"-"`. -/
def load_data (raw : List RawPlayer) : List Player :=
  (raw.map fillRow).filter (fun p => decide (p.Team_2025 ≠ "-"))

/-- ASCII upper-casing of a character, as `str.upper` acts on the ASCII
role strings of the dataset. -/
def charUpper (c : Char) : Char :=
  if 97 ≤ c.toNat ∧ c.toNat ≤ 122 then Char.ofNat (c.toNat - 32) else c

/-- Upper-casing of a role string (`.upper()` / `.str.upper()`). -/
def upper (s : String) : String :=
  ⟨s.data.map charUpper⟩

/-- Test that `pre` is a leading segment of `l` (character lists). -/
def charsPre : List Char → List Char → Bool
  | [], _ => true
  | _ :: _, [] => false
  | a :: pas, b :: bs => a == b && charsPre pas bs

/-- Test that `needle` occurs contiguously inside `hay` (character lists). -/
def charsSub (needle : List Char) : List Char → Bool
  | [] => charsPre needle []
  | b :: bs => charsPre needle (b :: bs) || charsSub needle bs

/-- Python substring containment `needle in hay`. -/
def strContains (hay needle : String) : Bool :=
  charsSub needle.data hay.data

/-- The keyword table `role_map` of the source, in its fixed order. -/
def role_map : List (String × List String) :=
  [("WK", ["BAT WK", "WK"]),
   ("BAT", ["BAT", "BATTER"]),
   ("AR", ["AR", "ALL-ROUNDER"]),
   ("BOWL", ["BOWL", "BOWLER"])]

/-- Dictionary lookup `role_map[k]`. -/
def kwsOf (k : String) : List String :=
  ((role_map.find? (fun e => e.1 == k)).map Prod.snd).getD []

/-- The priority dictionary `role_priority` of the source. -/
def role_priority : List (String × Nat) :=
  [("WK", 1), ("BAT", 2), ("AR", 3), ("BOWL", 4)]

/-- Condition `any(kw in r.upper() for kw in role_map[k])` of the priority
lambda: some keyword of the bucket is a substring of the upper-cased role. -/
def bucketAny (kws : List String) (r : String) : Bool :=
  kws.any (fun kw => strContains (upper r) kw)

/-- Embedding of the priority lambda
`next((role_priority[k] for k in role_priority if any(...)), 99)`:
the priority of the first bucket, in the fixed order WK, BAT, AR, BOWL,
any of whose keywords is a substring of the upper-cased role; 99 otherwise. -/
def role_order (r : String) : Nat :=
  match role_priority.find? (fun e => bucketAny (kwsOf e.1) r) with
  | some e => e.2
  | none => 99

/-- Tab partitioning `filtered_df[filtered_df["Role"].str.upper().isin(kws)]`:
exact membership of the upper-cased role in the bucket keyword list. -/
def tabPool (pool : List Player) (kws : List String) : List Player :=
  pool.filter (fun p => decide (upper p.Role ∈ kws))

/-- Filter criteria collected from the sidebar widgets. -/
structure Criteria where
  selected_teams : List String
  min_matches : Rat
  min_sr : Rat
  max_econ : Rat

/-- Embedding of the construction of `filtered_df`: the conjunction of the
three numeric thresholds, then, only when the team multiselect is nonempty,
the team-membership restriction. -/
def filtered_df (ds : List Player) (c : Criteria) : List Player :=
  let base := ds.filter (fun p =>
    decide (p.Total_Matches ≥ c.min_matches) &&
    decide (p.Strike_Rate ≥ c.min_sr) &&
    decide (p.Economy_Rate ≤ c.max_econ))
  if c.selected_teams.isEmpty then base
  else base.filter (fun p => decide (p.Team_2025 ∈ c.selected_teams))

/-- Descending order on predicted fantasy score, the key of every
`sort_values("Predicted_Fantasy_Score", ascending=False)` call. -/
def scoreGe (a b : Player) : Prop :=
  b.Predicted_Fantasy_Score ≤ a.Predicted_Fantasy_Score

instance : DecidableRel scoreGe := fun a b =>
  inferInstanceAs (Decidable (b.Predicted_Fantasy_Score ≤ a.Predicted_Fantasy_Score))

instance : IsTotal Player scoreGe :=
  ⟨fun a b => le_total b.Predicted_Fantasy_Score a.Predicted_Fantasy_Score⟩

instance : IsTrans Player scoreGe :=
  ⟨fun _ _ _ hab hbc => le_trans hbc hab⟩

/-- Ascending order on role priority, the key of `sort_values("role_order")`. -/
def roleLe (a b : Player) : Prop :=
  role_order a.Role ≤ role_order b.Role

instance : DecidableRel roleLe := fun a b =>
  inferInstanceAs (Decidable (role_order a.Role ≤ role_order b.Role))

instance : IsTotal Player roleLe :=
  ⟨fun a b => Nat.le_total (role_order a.Role) (role_order b.Role)⟩

instance : IsTrans Player roleLe :=
  ⟨fun _ _ _ hab hbc => le_trans hab hbc⟩

/-- Stable sort by descending predicted score. -/
def sortScoreDesc (l : List Player) : List Player :=
  l.insertionSort scoreGe

/-- Stable sort by ascending role priority. -/
def sortRoleAsc (l : List Player) : List Player :=
  l.insertionSort roleLe

/-- One step of the bucket loop: the sub-pool of the bucket by exact keyword
membership and, when it is nonempty, its highest-scoring row (`head(1)` of
the descending sort). -/
def bucketBest (pool : List Player) (kws : List String) : List Player :=
  if 0 < (tabPool pool kws).length then (sortScoreDesc (tabPool pool kws)).take 1
  else []

/-- The bucket loop `for role, keywords in role_map.items(): ...` appending
each bucket's best row in the fixed bucket order. -/
def bucketPicks (pool : List Player) : List Player :=
  (role_map.map (fun e => bucketBest pool e.2)).flatten

/-- Names of the rows already picked (`auto_team["player_name"]`). -/
def namesOf (l : List Player) : List String :=
  l.map Player.player_name

/-- The rows of the pool not yet picked (`~filtered_df["player_name"].isin(...)`). -/
def remainingPool (pool picks : List Player) : List Player :=
  pool.filter (fun p => !decide (p.player_name ∈ namesOf picks))

/-- The assembled automatic team after the top-up step: when fewer than 11
rows were picked, append the highest-scoring remaining rows up to 11. -/
def assembled (pool : List Player) : List Player :=
  if (bucketPicks pool).length < 11 then
    bucketPicks pool ++
      (sortScoreDesc (remainingPool pool (bucketPicks pool))).take
        (11 - (bucketPicks pool).length)
  else bucketPicks pool

/-- The automatic roster as finally ordered: the role-priority sort of the
source is applied first and the descending score sort after it. -/
def auto_roster (pool : List Player) : List Player :=
  sortScoreDesc (sortRoleAsc (assembled pool))

/-- The same pipeline with the role-priority sort of step 3 omitted; used to
compare against `auto_roster` for the equivalence claim. -/
def auto_roster_noRoleSort (pool : List Player) : List Player :=
  sortScoreDesc (assembled pool)

/-- The designation list `["Captain" if i == 0 else "Vice Captain" if i == 1
else "Player" for i in range(11)]`: its length is always 11. -/
def team_role_labels : List String :=
  (List.range 11).map (fun i =>
    if i = 0 then "Captain" else if i = 1 then "Vice Captain" else "Player")

/-- Embedding of the pandas column assignment
`auto_team["Team_Role"] = [...]`: pandas raises a `ValueError` when the
length of the assigned list differs from the number of rows, modeled as
`none`; on success each row is paired with its designation. -/
def assign_team_role (roster : List Player) : Option (List (Player × String)) :=
  if roster.length = team_role_labels.length then some (roster.zip team_role_labels)
  else none

/-- Sum of the predicted scores of a list of rows. -/
def sumScores (l : List Player) : Rat :=
  (l.map Player.Predicted_Fantasy_Score).sum

/-- The automatic-mode branch: assemble the roster, assign designations
(failing as pandas does on a length mismatch), and report the total and the
average, the average being `total_score/11` exactly as in the source. -/
def auto_flow (pool : List Player) :
    Option (List (Player × String) × Rat × Rat) :=
  match assign_team_role (auto_roster pool) with
  | none => none
  | some tbl => some (tbl, sumScores (auto_roster pool), sumScores (auto_roster pool) / 11)

/-- The deduplicated union `list(set(chosen_wk + chosen_bat + chosen_ar +
chosen_bowl))` of the per-tab selections: only its member set and its
length are observable downstream. -/
def selectionOf (sWk sBat sAr sBowl : List String) : List String :=
  (sWk ++ sBat ++ sAr ++ sBowl).dedup

/-- The manual roster rows: pool rows whose name is among the selection. -/
def manual_user_df (pool : List Player) (sel : List String) : List Player :=
  pool.filter (fun p => decide (p.player_name ∈ sel))

/-- Result of the manual-mode branch: whether the overflow error message was
shown, and the summary (sorted table, total, average) if one was produced. -/
structure ManualOutcome where
  overflow : Bool
  summary : Option (List Player × Rat × Rat)
deriving DecidableEq

/-- The manual roster rows after the overflow truncation: on more than 11
distinct selected names the matched rows are cut to the first 11
(`user_df = user_df.head(11)`). -/
def manual_trunc (pool : List Player) (sel : List String) : List Player :=
  if 11 < sel.length then (manual_user_df pool sel).take 11
  else manual_user_df pool sel

/-- The manual-mode branch of the summary tab: dedup the selections, match
them against the pool, on more than 11 distinct names show the error AND
truncate to the first 11 rows, then, when any row remains, sort by ascending
role priority and report the table with its total and average. -/
def manual_flow (pool : List Player) (sWk sBat sAr sBowl : List String) :
    ManualOutcome :=
  if 0 < (manual_trunc pool (selectionOf sWk sBat sAr sBowl)).length then
    { overflow := decide (11 < (selectionOf sWk sBat sAr sBowl).length)
      summary := some
        (sortRoleAsc (manual_trunc pool (selectionOf sWk sBat sAr sBowl)),
         sumScores (sortRoleAsc (manual_trunc pool (selectionOf sWk sBat sAr sBowl))),
         sumScores (sortRoleAsc (manual_trunc pool (selectionOf sWk sBat sAr sBowl))) /
           (((sortRoleAsc (manual_trunc pool (selectionOf sWk sBat sAr sBowl))).length : Nat) : Rat)) }
  else
    { overflow := decide (11 < (selectionOf sWk sBat sAr sBowl).length)
      summary := none }

/-! Concrete rows used to evaluate the pipelines on explicit inputs. -/

/-- A batter whose score ties the second wicketkeeper below. -/
def pBat9 : Player := ⟨"Amar", "T", "BAT", 0, 0, 0, 9⟩

/-- The top-scoring wicketkeeper of the three-row pool. -/
def pWk10 : Player := ⟨"Bela", "T", "WK", 0, 0, 0, 10⟩

/-- A second wicketkeeper tied in score with the batter. -/
def pWkB9 : Player := ⟨"Chand", "T", "BAT WK", 0, 0, 0, 9⟩

/-- A three-row pool with a score tie between rows of different buckets. -/
def pool3 : List Player := [pBat9, pWk10, pWkB9]

/-- Row constructor for pools of unmatched-role players. -/
def mkP (n : String) (sc : Rat) : Player := ⟨n, "T", "X", 0, 0, 0, sc⟩

/-- Eleven rows with distinct names and descending scores 11, 10, ..., 1. -/
def pool11 : List Player :=
  [mkP "P01" 11, mkP "P02" 10, mkP "P03" 9, mkP "P04" 8, mkP "P05" 7, mkP "P06" 6,
   mkP "P07" 5, mkP "P08" 4, mkP "P09" 3, mkP "P10" 2, mkP "P11" 1]

/-- The designation table the automatic mode produces on `pool11`. -/
def tbl11 : List (Player × String) :=
  [(mkP "P01" 11, "Captain"), (mkP "P02" 10, "Vice Captain"), (mkP "P03" 9, "Player"),
   (mkP "P04" 8, "Player"), (mkP "P05" 7, "Player"), (mkP "P06" 6, "Player"),
   (mkP "P07" 5, "Player"), (mkP "P08" 4, "Player"), (mkP "P09" 3, "Player"),
   (mkP "P10" 2, "Player"), (mkP "P11" 1, "Player")]

/-- Twelve rows with distinct names: one more than the manual limit. -/
def pool12 : List Player := pool11 ++ [mkP "P12" 12]

/-- The twelve names of `pool12`, all chosen in the wicketkeeper tab. -/
def names12 : List String := pool12.map Player.player_name

/-- A single-row pool exhibiting the designation-assignment failure. -/
def pSoloC2 : Player := ⟨"Dev", "T", "BAT", 0, 0, 0, 7⟩

/-- A single-row pool whose lone score the spec expects back as the average. -/
def pSoloC3 : Player := ⟨"Esha", "T", "BOWLER", 0, 0, 0, 5⟩

/-- A bowler row of the two-row manual pool. -/
def pB : Player := ⟨"B", "T", "BOWL", 0, 0, 0, 1⟩

/-- A wicketkeeper row of the two-row manual pool. -/
def pW : Player := ⟨"W", "T", "WK", 0, 0, 0, 2⟩

/-! Helper lemmas about the sorts and the bucket loop. -/

theorem mem_sortScoreDesc {l : List Player} {p : Player} :
    p ∈ sortScoreDesc l ↔ p ∈ l :=
  List.mem_insertionSort _

theorem mem_sortRoleAsc {l : List Player} {p : Player} :
    p ∈ sortRoleAsc l ↔ p ∈ l :=
  List.mem_insertionSort _

theorem length_sortScoreDesc (l : List Player) :
    (sortScoreDesc l).length = l.length :=
  List.length_insertionSort _ _

theorem length_sortRoleAsc (l : List Player) :
    (sortRoleAsc l).length = l.length :=
  List.length_insertionSort _ _

theorem mem_tabPool {pool : List Player} {kws : List String} {p : Player} :
    p ∈ tabPool pool kws ↔ p ∈ pool ∧ upper p.Role ∈ kws := by
  simp [tabPool, List.mem_filter]

theorem bucketBest_mem {pool : List Player} {kws : List String} {p : Player}
    (hp : p ∈ bucketBest pool kws) : p ∈ pool ∧ upper p.Role ∈ kws := by
  unfold bucketBest at hp
  by_cases h : 0 < (tabPool pool kws).length
  · rw [if_pos h] at hp
    exact mem_tabPool.mp (mem_sortScoreDesc.mp (List.mem_of_mem_take hp))
  · rw [if_neg h] at hp
    cases hp

theorem bucketBest_length {pool : List Player} {kws : List String} :
    (bucketBest pool kws).length ≤ 1 := by
  unfold bucketBest
  by_cases h : 0 < (tabPool pool kws).length
  · rw [if_pos h, List.length_take]
    exact Nat.min_le_left _ _
  · rw [if_neg h]
    exact Nat.zero_le 1

/-! Claim C4: the filter predicate. -/

/-- C4.  A row is retained by the filter iff it comes from the dataset and
satisfies all four clauses: matches at least `min_matches`, strike rate at
least `min_sr`, economy at most `max_econ`, and team-subset membership when
the subset is nonempty; the output is a sublist of the input. -/
theorem C4_filter_predicate (ds : List Player) (c : Criteria) (p : Player) :
    (p ∈ filtered_df ds c ↔
      p ∈ ds ∧ p.Total_Matches ≥ c.min_matches ∧ p.Strike_Rate ≥ c.min_sr ∧
        p.Economy_Rate ≤ c.max_econ ∧
        (c.selected_teams = [] ∨ p.Team_2025 ∈ c.selected_teams)) ∧
    List.Sublist (filtered_df ds c) ds := by
  constructor
  · unfold filtered_df
    by_cases h : c.selected_teams.isEmpty
    · have he : c.selected_teams = [] := by simpa using h
      rw [if_pos h]
      simp only [List.mem_filter, Bool.and_eq_true, decide_eq_true_eq, and_assoc]
      constructor
      · rintro ⟨hd, h1, h2, h3⟩
        exact ⟨hd, h1, h2, h3, Or.inl he⟩
      · rintro ⟨hd, h1, h2, h3, _⟩
        exact ⟨hd, h1, h2, h3⟩
    · have he : ¬ c.selected_teams = [] := by simpa using h
      rw [if_neg h]
      simp only [List.mem_filter, Bool.and_eq_true, decide_eq_true_eq, and_assoc]
      constructor
      · rintro ⟨hd, h1, h2, h3, h4⟩
        exact ⟨hd, h1, h2, h3, Or.inr h4⟩
      · rintro ⟨hd, h1, h2, h3, h4 | h4⟩
        · exact absurd h4 he
        · exact ⟨hd, h1, h2, h3, h4⟩
  · unfold filtered_df
    by_cases h : c.selected_teams.isEmpty
    · rw [if_pos h]
      exact List.filter_sublist ds
    · rw [if_neg h]
      exact (List.filter_sublist _).trans (List.filter_sublist ds)

/-! Claim C7: the role classifier. -/

theorem kwsOf_WK : kwsOf "WK" = ["BAT WK", "WK"] := rfl

theorem kwsOf_BAT : kwsOf "BAT" = ["BAT", "BATTER"] := rfl

theorem kwsOf_AR : kwsOf "AR" = ["AR", "ALL-ROUNDER"] := rfl

theorem kwsOf_BOWL : kwsOf "BOWL" = ["BOWL", "BOWLER"] := rfl

/-- C7.  The role classifier is total; tab partitioning retains a row iff the
upper-cased role is exactly a member of the bucket keyword list; the priority
is that of the first bucket, in the fixed order WK, BAT, AR, BOWL, any of
whose keywords is a substring of the upper-cased role, and 99 when no bucket
matches. -/
theorem C7_role_classifier (r : String) (pool : List Player) (p : Player)
    (kws : List String) :
    (p ∈ tabPool pool kws ↔ p ∈ pool ∧ upper p.Role ∈ kws) ∧
    role_order r =
      (if bucketAny ["BAT WK", "WK"] r then 1
       else if bucketAny ["BAT", "BATTER"] r then 2
       else if bucketAny ["AR", "ALL-ROUNDER"] r then 3
       else if bucketAny ["BOWL", "BOWLER"] r then 4
       else 99) := by
  refine ⟨mem_tabPool, ?_⟩
  cases h1 : bucketAny ["BAT WK", "WK"] r <;>
    cases h2 : bucketAny ["BAT", "BATTER"] r <;>
      cases h3 : bucketAny ["AR", "ALL-ROUNDER"] r <;>
        cases h4 : bucketAny ["BOWL", "BOWLER"] r <;>
          simp [role_order, role_priority, List.find?, kwsOf_WK, kwsOf_BAT, kwsOf_AR,
            kwsOf_BOWL, h1, h2, h3, h4]

/-! Claim C8: the final automatic order. -/

/-- C8.  The final automatic roster is ordered non-ascending by predicted
fantasy score. -/
theorem C8_auto_roster_sorted (pool : List Player) :
    List.Sorted scoreGe (auto_roster pool) := by
  unfold auto_roster sortScoreDesc
  exact List.sorted_insertionSort scoreGe _

/-! Claim C9: the loader. -/

/-- C9.  A row survives `load_data` iff it is the zero-filled image of a raw
row whose team is not the sentinel `"-"`; zero-filling replaces every missing
numeric value by 0 and leaves present values unchanged. -/
theorem C9_load_data (raw : List RawPlayer) (p : Player) :
    (p ∈ load_data raw ↔ ∃ q, q ∈ raw ∧ q.Team_2025 ≠ "-" ∧ p = fillRow q) ∧
    (∀ q : RawPlayer,
      (fillRow q).Team_2025 = q.Team_2025 ∧
      (fillRow q).Total_Matches = q.Total_Matches.getD 0 ∧
      (fillRow q).Strike_Rate = q.Strike_Rate.getD 0 ∧
      (fillRow q).Economy_Rate = q.Economy_Rate.getD 0 ∧
      (fillRow q).Predicted_Fantasy_Score = q.Predicted_Fantasy_Score.getD 0) := by
  constructor
  · unfold load_data
    simp only [List.mem_filter, List.mem_map, decide_eq_true_eq]
    constructor
    · rintro ⟨⟨q, hq, rfl⟩, ht⟩
      exact ⟨q, hq, ht, rfl⟩
    · rintro ⟨q, hq, ht, rfl⟩
      exact ⟨⟨q, hq, rfl⟩, ht⟩
  · intro q
    exact ⟨rfl, rfl, rfl, rfl, rfl⟩

/-! Counting machinery for the roster-size claim. -/

theorem length_filter_sel (pool : List Player) (ns : List String)
    (hpool : (pool.map Player.player_name).Nodup) (hns : ns.Nodup)
    (hsub : ∀ n ∈ ns, n ∈ pool.map Player.player_name) :
    (pool.filter (fun p => decide (p.player_name ∈ ns))).length = ns.length := by
  have hnd : ((pool.filter (fun p => decide (p.player_name ∈ ns))).map
      Player.player_name).Nodup :=
    ((List.filter_sublist pool).map Player.player_name).nodup hpool
  have hperm : List.Perm
      ((pool.filter (fun p => decide (p.player_name ∈ ns))).map Player.player_name) ns := by
    rw [List.perm_ext_iff_of_nodup hnd hns]
    intro n
    constructor
    · intro hn
      obtain ⟨p, hp, rfl⟩ := List.mem_map.mp hn
      exact of_decide_eq_true (List.mem_filter.mp hp).2
    · intro hn
      obtain ⟨p, hp, he⟩ := List.mem_map.mp (hsub n hn)
      subst he
      exact List.mem_map_of_mem _ (List.mem_filter.mpr ⟨hp, decide_eq_true hn⟩)
  simpa using hperm.length_eq

theorem length_remainingPool (pool picks : List Player)
    (hpool : (pool.map Player.player_name).Nodup) (hns : (namesOf picks).Nodup)
    (hsub : ∀ n ∈ namesOf picks, n ∈ pool.map Player.player_name) :
    (remainingPool pool picks).length = pool.length - picks.length := by
  have h0 := List.length_eq_length_filter_add
    (l := pool) (fun p => decide (p.player_name ∈ namesOf picks))
  rw [length_filter_sel pool (namesOf picks) hpool hns hsub] at h0
  have hm : (namesOf picks).length = picks.length := List.length_map _ _
  have h1 : pool.length = picks.length + (remainingPool pool picks).length := by
    simpa [remainingPool, hm] using h0
  omega

theorem disjoint_kws_aux {l1 l2 : List String}
    (h : (l1.all (fun a => l2.all (fun b => !(a == b)))) = true)
    {s : String} (h1 : s ∈ l1) (h2 : s ∈ l2) : False := by
  have ha := List.all_eq_true.mp h s h1
  have hb := List.all_eq_true.mp ha s h2
  simp at hb

theorem name_ne_of_buckets {pool : List Player} {p q : Player} {kws1 kws2 : List String}
    (hpool : (pool.map Player.player_name).Nodup)
    (hd : (kws1.all (fun a => kws2.all (fun b => !(a == b)))) = true)
    (hp : p ∈ bucketBest pool kws1) (hq : q ∈ bucketBest pool kws2) :
    p.player_name ≠ q.player_name := by
  intro he
  obtain ⟨hp1, hp2⟩ := bucketBest_mem hp
  obtain ⟨hq1, hq2⟩ := bucketBest_mem hq
  have hpq : p = q := List.inj_on_of_nodup_map hpool hp1 hq1 he
  subst hpq
  exact disjoint_kws_aux hd hp2 hq2

theorem disj_bucket_names {pool : List Player} {kws1 kws2 : List String}
    (hpool : (pool.map Player.player_name).Nodup)
    (hd : (kws1.all (fun a => kws2.all (fun b => !(a == b)))) = true) :
    List.Disjoint ((bucketBest pool kws1).map Player.player_name)
      ((bucketBest pool kws2).map Player.player_name) := by
  intro n hn1 hn2
  obtain ⟨p, hp, rfl⟩ := List.mem_map.mp hn1
  obtain ⟨q, hq, he⟩ := List.mem_map.mp hn2
  exact name_ne_of_buckets hpool hd hp hq he.symm

theorem nodup_map_of_le_one {f : Player → String} {l : List Player}
    (h : l.length ≤ 1) : (l.map f).Nodup := by
  match l with
  | [] => simp
  | [a] => simp
  | a :: b :: t => exact absurd h (by simp)

theorem bucketPicks_eq (pool : List Player) :
    bucketPicks pool =
      bucketBest pool ["BAT WK", "WK"] ++
        (bucketBest pool ["BAT", "BATTER"] ++
          (bucketBest pool ["AR", "ALL-ROUNDER"] ++ bucketBest pool ["BOWL", "BOWLER"])) := by
  simp [bucketPicks, role_map]

theorem bucketPicks_names_nodup (pool : List Player)
    (hpool : (pool.map Player.player_name).Nodup) :
    ((bucketPicks pool).map Player.player_name).Nodup := by
  rw [bucketPicks_eq]
  simp only [List.map_append]
  refine List.nodup_append.mpr ⟨nodup_map_of_le_one bucketBest_length,
    List.nodup_append.mpr ⟨nodup_map_of_le_one bucketBest_length,
      List.nodup_append.mpr ⟨nodup_map_of_le_one bucketBest_length,
        nodup_map_of_le_one bucketBest_length,
        disj_bucket_names hpool (by decide)⟩,
      List.disjoint_append_right.mpr
        ⟨disj_bucket_names hpool (by decide), disj_bucket_names hpool (by decide)⟩⟩,
    List.disjoint_append_right.mpr
      ⟨disj_bucket_names hpool (by decide),
       List.disjoint_append_right.mpr
        ⟨disj_bucket_names hpool (by decide), disj_bucket_names hpool (by decide)⟩⟩⟩

theorem bucketPicks_length_le (pool : List Player) :
    (bucketPicks pool).length ≤ 4 := by
  rw [bucketPicks_eq]
  simp only [List.length_append]
  have h1 : (bucketBest pool ["BAT WK", "WK"]).length ≤ 1 := bucketBest_length
  have h2 : (bucketBest pool ["BAT", "BATTER"]).length ≤ 1 := bucketBest_length
  have h3 : (bucketBest pool ["AR", "ALL-ROUNDER"]).length ≤ 1 := bucketBest_length
  have h4 : (bucketBest pool ["BOWL", "BOWLER"]).length ≤ 1 := bucketBest_length
  omega

theorem bucketPicks_subset {pool : List Player} {p : Player}
    (hp : p ∈ bucketPicks pool) : p ∈ pool := by
  rw [bucketPicks_eq] at hp
  simp only [List.mem_append] at hp
  rcases hp with h | h | h | h <;> exact (bucketBest_mem h).1

/-! Claim C5: the size of the automatic roster. -/

/-- C5.  For every filtered pool with pairwise-distinct player names, the
automatic roster has size exactly `min 11 (pool size)`. -/
theorem C5_auto_roster_size (pool : List Player)
    (h : (pool.map Player.player_name).Nodup) :
    (auto_roster pool).length = min 11 pool.length := by
  have hn : (namesOf (bucketPicks pool)).Nodup := bucketPicks_names_nodup pool h
  have hs : ∀ n ∈ namesOf (bucketPicks pool), n ∈ pool.map Player.player_name := by
    intro n hn2
    obtain ⟨p, hp, rfl⟩ := List.mem_map.mp hn2
    exact List.mem_map_of_mem _ (bucketPicks_subset hp)
  have h4 : (bucketPicks pool).length ≤ 4 := bucketPicks_length_le pool
  have hrem : (remainingPool pool (bucketPicks pool)).length =
      pool.length - (bucketPicks pool).length :=
    length_remainingPool pool (bucketPicks pool) h hn hs
  have hple : (bucketPicks pool).length ≤ pool.length := by
    have he := length_filter_sel pool (namesOf (bucketPicks pool)) h hn hs
    have hle := List.length_filter_le
      (fun p => decide (p.player_name ∈ namesOf (bucketPicks pool))) pool
    have hm : (namesOf (bucketPicks pool)).length = (bucketPicks pool).length :=
      List.length_map _ _
    omega
  unfold auto_roster
  rw [length_sortScoreDesc, length_sortRoleAsc]
  unfold assembled
  rw [if_pos (by omega : (bucketPicks pool).length < 11)]
  rw [List.length_append, List.length_take, length_sortScoreDesc, hrem]
  omega

/-- Witness for C5 on a concrete two-row pool with distinct names. -/
theorem C5_auto_roster_size_witness :
    (([pB, pW].map Player.player_name).Nodup) ∧
      (auto_roster [pB, pW]).length = min 11 ([pB, pW] : List Player).length :=
  ⟨by decide, C5_auto_roster_size [pB, pW] (by decide)⟩

/-! Claim C6: the observable effect of the role-priority sort. -/

/-- C6 counterexample.  On a pool with a score tie across buckets the
pipeline with the role-priority sort and the pipeline without it produce
different final orders, so the sort does have a remaining observable
effect. -/
theorem C6_role_sort_observable :
    auto_roster pool3 ≠ auto_roster_noRoleSort pool3 := by decide

/-- C6 amended.  The role-priority sort of step 3 changes neither the
multiset of the final roster nor its non-ascending-by-score ordering: the
two pipelines agree up to a permutation of equally-scored rows. -/
theorem C6_role_sort_effect (pool : List Player) :
    List.Perm (auto_roster pool) (auto_roster_noRoleSort pool) ∧
    List.Sorted scoreGe (auto_roster pool) ∧
    List.Sorted scoreGe (auto_roster_noRoleSort pool) := by
  refine ⟨?_, ?_, ?_⟩
  · unfold auto_roster auto_roster_noRoleSort sortScoreDesc sortRoleAsc
    exact ((List.perm_insertionSort _ _).trans (List.perm_insertionSort _ _)).trans
      (List.perm_insertionSort _ _).symm
  · unfold auto_roster sortScoreDesc
    exact List.sorted_insertionSort _ _
  · unfold auto_roster_noRoleSort sortScoreDesc
    exact List.sorted_insertionSort _ _

/-! Claim C2: the designation assignment. -/

/-- C2.  On a single-row filtered pool the automatic roster has size 1, yet
the fixed-length designation list of the source is 11 long, so the pandas
column assignment fails (length mismatch) instead of being capped at the
roster size. -/
theorem C2_designation_length_mismatch :
    (auto_roster [pSoloC2]).length = 1 ∧
    team_role_labels.length = 11 ∧
    assign_team_role (auto_roster [pSoloC2]) = none := by decide

/-! Claim C3: the reported total and average of the automatic mode. -/

/-- C3 counterexample.  On a single-row pool the automatic branch fails at
the designation assignment, so no total or average is reported at all; in
particular the average does not equal the single player's score. -/
theorem C3_size_one_has_no_average :
    (auto_roster [pSoloC3]).length = 1 ∧ auto_flow [pSoloC3] = none := by decide

/-- C3 amended.  Whenever the automatic branch does report a summary, the
total is the sum of the roster's predicted scores, the table has exactly 11
rows, and the average — computed as `total_score/11` in the source — equals
the total divided by the table's size. -/
theorem C3_total_average (pool : List Player) (tbl : List (Player × String)) (t a : Rat)
    (h : auto_flow pool = some (tbl, t, a)) :
    t = sumScores (auto_roster pool) ∧ tbl.length = 11 ∧
      a = t / ((tbl.length : Nat) : Rat) := by
  unfold auto_flow at h
  cases he : assign_team_role (auto_roster pool) with
  | none =>
    rw [he] at h
    cases h
  | some tbl2 =>
    rw [he] at h
    simp only [Option.some.injEq, Prod.mk.injEq] at h
    obtain ⟨rfl, rfl, rfl⟩ := h
    have hlen : tbl2.length = 11 := by
      unfold assign_team_role at he
      by_cases hl : (auto_roster pool).length = team_role_labels.length
      · rw [if_pos hl] at he
        have hz : (auto_roster pool).zip team_role_labels = tbl2 := by
          injection he
        rw [← hz, List.length_zip, hl]
        decide
      · rw [if_neg hl] at he
        cases he
    refine ⟨rfl, hlen, ?_⟩
    rw [hlen]
    norm_num

/-- Witness for C3 amended on a concrete eleven-row pool. -/
theorem C3_total_average_witness :
    (66 : Rat) = sumScores (auto_roster pool11) ∧ tbl11.length = 11 ∧
      (6 : Rat) = (66 : Rat) / ((tbl11.length : Nat) : Rat) :=
  C3_total_average pool11 tbl11 66 6 (by with_unfolding_all decide)

/-! Claim C1: manual overflow handling. -/

/-- C1 counterexample.  With twelve distinct selected names the manual
branch shows the overflow error, yet still produces a scored summary. -/
theorem C1_overflow_claim_false :
    (manual_flow pool12 names12 [] [] []).overflow = true ∧
    (manual_flow pool12 names12 [] [] []).summary ≠ none := by decide

/-- C1 amended.  With more than 11 distinct selected names the manual branch
shows the overflow error but truncates the matched rows to the first 11 and
still scores them: any summary produced is a permutation of the first 11
matched rows with their score sum as total. -/
theorem C1_overflow_truncates_and_scores (pool : List Player)
    (sWk sBat sAr sBowl : List String)
    (hov : 11 < (selectionOf sWk sBat sAr sBowl).length)
    (tbl : List Player) (t a : Rat)
    (hs : (manual_flow pool sWk sBat sAr sBowl).summary = some (tbl, t, a)) :
    (manual_flow pool sWk sBat sAr sBowl).overflow = true ∧
    List.Perm tbl ((manual_user_df pool (selectionOf sWk sBat sAr sBowl)).take 11) ∧
    t = sumScores tbl := by
  unfold manual_flow at hs ⊢
  by_cases h : 0 < (manual_trunc pool (selectionOf sWk sBat sAr sBowl)).length
  · rw [if_pos h] at hs ⊢
    dsimp only at hs ⊢
    simp only [Option.some.injEq, Prod.mk.injEq] at hs
    obtain ⟨rfl, rfl, rfl⟩ := hs
    refine ⟨decide_eq_true hov, ?_, rfl⟩
    have htr : manual_trunc pool (selectionOf sWk sBat sAr sBowl) =
        (manual_user_df pool (selectionOf sWk sBat sAr sBowl)).take 11 := by
      unfold manual_trunc
      rw [if_pos hov]
    rw [← htr]
    unfold sortRoleAsc
    exact List.perm_insertionSort _ _
  · rw [if_neg h] at hs
    dsimp only at hs
    cases hs

/-- Witness for C1 amended on the concrete twelve-row pool. -/
theorem C1_overflow_truncates_and_scores_witness :
    (manual_flow pool12 names12 [] [] []).overflow = true ∧
    List.Perm pool11 ((manual_user_df pool12 (selectionOf names12 [] [] [])).take 11) ∧
    (66 : Rat) = sumScores pool11 :=
  C1_overflow_truncates_and_scores pool12 names12 [] [] [] (by decide) pool11 66 6
    (by with_unfolding_all decide)

/-! Claim C10: the manual summary order. -/

/-- C10.  With between 1 and 11 distinct selected names, any manual summary
table is sorted by ascending role priority and is a permutation of the
matched rows. -/
theorem C10_manual_summary_sorted (pool : List Player)
    (sWk sBat sAr sBowl : List String)
    (h1 : 1 ≤ (selectionOf sWk sBat sAr sBowl).length)
    (h2 : (selectionOf sWk sBat sAr sBowl).length ≤ 11)
    (tbl : List Player) (t a : Rat)
    (hs : (manual_flow pool sWk sBat sAr sBowl).summary = some (tbl, t, a)) :
    List.Sorted roleLe tbl ∧
    List.Perm tbl (manual_user_df pool (selectionOf sWk sBat sAr sBowl)) := by
  unfold manual_flow at hs
  by_cases h : 0 < (manual_trunc pool (selectionOf sWk sBat sAr sBowl)).length
  · rw [if_pos h] at hs
    dsimp only at hs
    simp only [Option.some.injEq, Prod.mk.injEq] at hs
    obtain ⟨rfl, -, -⟩ := hs
    have htr : manual_trunc pool (selectionOf sWk sBat sAr sBowl) =
        manual_user_df pool (selectionOf sWk sBat sAr sBowl) := by
      unfold manual_trunc
      rw [if_neg (by omega)]
    constructor
    · unfold sortRoleAsc
      exact List.sorted_insertionSort _ _
    · rw [htr]
      unfold sortRoleAsc
      exact List.perm_insertionSort _ _
  · rw [if_neg h] at hs
    dsimp only at hs
    cases hs

/-- Witness for C10 on a concrete two-row pool whose selection order differs
from the role-priority order. -/
theorem C10_manual_summary_sorted_witness :
    List.Sorted roleLe [pW, pB] ∧
    List.Perm [pW, pB] (manual_user_df [pB, pW] (selectionOf ["W", "B"] [] [] [])) :=
  C10_manual_summary_sorted [pB, pW] ["W", "B"] [] [] [] (by decide) (by decide)
    [pW, pB] 3 (3 / 2) (by with_unfolding_all decide)

end IPLFantasy
